import Mathlib

/-!
# Budget Tracker: the ledger core of `src/BudgetTracker-Git.js`

A shallow embedding of the ledger logic of the `BudgetTracker` React component
(validation, add, delete, load, save, export, totals, per-category totals) and theorems
about it.

Modelling conventions.

* JavaScript strings are Lean strings.
* JavaScript numbers are `JSNumber`: `NaN`, the two infinities, and finite values.
  A finite value is the rational number a binary64 double denotes.  Every operation that
  yields a number (`+`, `-`, `parseFloat`) rounds its mathematical result to the nearest
  binary64 value, ties to even, with overflow to `Infinity` and gradual underflow
  (`roundToDouble`).  The sign of zero is not tracked.
* The React state of the component is the record `State`; an event handler is a function
  from the state before the event to the state after it.  The readings of the clock
  (`Date.now()` and the ISO date of today) are arguments of the handler.
* The form is edited through its five inputs: the select of the type offers expense and
  income, the amount is an `<input type="number">`, whose value is the typed text when
  that is a valid floating-point number and the empty string otherwise.
* `handleSubmit` and `handleDelete` record the sequence they hand to `saveData` in the
  state; `saveData` and `loadData` take the key-value store and the built-ins
  `JSON.stringify` and `JSON.parse` as arguments; nothing is assumed of the store.
* An object used as a map (`categoryMap`, `newErrors`) is the list of its own properties
  in creation order, looked up through the properties every plain object inherits from
  `Object.prototype`.
-/

namespace BudgetTracker

/-! ## JavaScript numbers -/

/-- A JavaScript number: `NaN`, a finite value, or an infinity (`neg` says which one). -/
inductive JSNumber where
  | nan : JSNumber
  | fin (q : ℚ) : JSNumber
  | inf (neg : Bool) : JSNumber
  deriving DecidableEq

/-- The power `2 ^ k` for an integer exponent. -/
def pow2 (k : Int) : ℚ :=
  if 0 ≤ k then ((2 ^ k.toNat : Nat) : ℚ) else 1 / ((2 ^ (-k).toNat : Nat) : ℚ)

/-- The integer nearest to a non-negative rational, the even one of the two on a tie. -/
def roundHalfEven (m : ℚ) : Int :=
  let floor : Int := m.num / (m.den : Int)
  let rest : ℚ := m - (floor : ℚ)
  if rest < 1 / 2 then floor
  else if 1 / 2 < rest then floor + 1
  else if floor % 2 = 0 then floor
  else floor + 1

/-- The halvings that take `n` below 2, at most `fuel` of them. -/
def log2Loop : Nat → Nat → Nat
  | 0, _ => 0
  | fuel + 1, n => if n < 2 then 0 else log2Loop fuel (n / 2) + 1

/-- The exponent `k` with `2 ^ k ≤ n < 2 ^ (k + 1)`, for a positive natural number `n`. -/
def natLog2 (n : Nat) : Nat := log2Loop n n

/-- The exponent `e` with `2 ^ e ≤ a < 2 ^ (e + 1)`, for a positive rational `a`. -/
def floorLog2 (a : ℚ) : Int :=
  let guess : Int := Int.ofNat (natLog2 a.num.natAbs) - Int.ofNat (natLog2 a.den)
  if pow2 guess ≤ a then guess else guess - 1

/-- The binary64 value nearest to a rational, ties to even: 53 significant bits, the
least exponent -1022 (below it the spacing stays `2 ^ (-1074)`), and `Infinity` from
`2 ^ 1024` on. -/
def roundToDouble (q : ℚ) : JSNumber :=
  if q = 0 then JSNumber.fin 0
  else
    let a : ℚ := if q < 0 then -q else q
    let e : Int := if floorLog2 a < -1022 then -1022 else floorLog2 a
    let ulp : ℚ := pow2 (e - 52)
    let r : ℚ := (roundHalfEven (a / ulp) : ℚ) * ulp
    if pow2 1024 ≤ r then JSNumber.inf (decide (q < 0))
    else JSNumber.fin (if q < 0 then -r else r)

namespace JSNumber

/-- The JavaScript `+` on two numbers: the sum of two finite values is rounded. -/
def add : JSNumber → JSNumber → JSNumber
  | nan, _ => nan
  | _, nan => nan
  | fin a, fin b => roundToDouble (a + b)
  | fin _, inf s => inf s
  | inf s, fin _ => inf s
  | inf s, inf t => if s = t then inf s else nan

/-- The JavaScript unary `-`. -/
def neg : JSNumber → JSNumber
  | nan => nan
  | fin a => fin (-a)
  | inf s => inf (!s)

/-- The JavaScript binary `-` on two numbers. -/
def sub (x y : JSNumber) : JSNumber := add x (neg y)

/-- The JavaScript `<=` on two numbers: false as soon as one side is `NaN`. -/
def le : JSNumber → JSNumber → Bool
  | nan, _ => false
  | _, nan => false
  | fin a, fin b => decide (a ≤ b)
  | fin _, inf s => !s
  | inf s, fin _ => s
  | inf s, inf t => s || !t

/-- The JavaScript `>` on two numbers: false as soon as one side is `NaN`. -/
def gt : JSNumber → JSNumber → Bool
  | nan, _ => false
  | _, nan => false
  | fin a, fin b => decide (b < a)
  | fin _, inf s => s
  | inf s, fin _ => !s
  | inf s, inf t => !s && t

/-- The test `Number.isNaN`. -/
def isNaN : JSNumber → Bool
  | nan => true
  | _ => false

instance : Add JSNumber := ⟨add⟩
instance : Sub JSNumber := ⟨sub⟩
instance : Zero JSNumber := ⟨fin 0⟩

end JSNumber

/-! ## Strings: `trim` and `parseFloat` -/

/-- The characters `String.prototype.trim` removes and `parseFloat` skips at the start:
ECMAScript WhiteSpace and LineTerminator code points. -/
def isWhiteSpace (c : Char) : Bool :=
  let n := c.toNat
  n = 0x09 || n = 0x0A || n = 0x0B || n = 0x0C || n = 0x0D || n = 0x20 || n = 0xA0 ||
  n = 0x1680 || (0x2000 ≤ n && n ≤ 0x200A) || n = 0x2028 || n = 0x2029 || n = 0x202F ||
  n = 0x205F || n = 0x3000 || n = 0xFEFF

/-- Leading white space removed. -/
def trimStart (cs : List Char) : List Char := cs.dropWhile isWhiteSpace

/-- Trailing white space removed. -/
def trimEnd (cs : List Char) : List Char := (cs.reverse.dropWhile isWhiteSpace).reverse

/-- The method `String.prototype.trim`. -/
def jsTrim (s : String) : String := ⟨trimEnd (trimStart s.data)⟩

/-- Truthiness of a string, as `!s` tests it: only the empty string is falsy. -/
def truthyString (s : String) : Bool := !s.data.isEmpty

/-- A decimal digit `0`..`9`. -/
def isDecimalDigit (c : Char) : Bool := 48 ≤ c.toNat && c.toNat ≤ 57

/-- The number a run of decimal digits denotes. -/
def digitsValue (ds : List Char) : Nat := ds.foldl (fun n c => 10 * n + (c.toNat - 48)) 0

/-- Whether `cs` begins with the characters `p`. -/
def startsWith : List Char → List Char → Bool
  | [], _ => true
  | _ :: _, [] => false
  | p :: ps, c :: cs => p = c && startsWith ps cs

/-- The value of an `ExponentPart` at the head of `cs`, and `0` when `cs` does not begin
with a complete one (`e` or `E`, an optional sign, at least one digit): the longest
literal then ends before the `e`. -/
def parseExponent (cs : List Char) : Int :=
  match cs with
  | [] => 0
  | c :: rest =>
    if c = 'e' || c = 'E' then
      match rest with
      | [] => 0
      | s :: rest2 =>
        if s = '+' then Int.ofNat (digitsValue (rest2.takeWhile isDecimalDigit))
        else if s = '-' then -Int.ofNat (digitsValue (rest2.takeWhile isDecimalDigit))
        else Int.ofNat (digitsValue (rest.takeWhile isDecimalDigit))
    else 0

/-- The mathematical value `n * 10 ^ k`. -/
def scaleDecimal (n : Nat) (k : Int) : ℚ :=
  if 0 ≤ k then ((n * 10 ^ k.toNat : Nat) : ℚ) else (n : ℚ) / ((10 ^ (-k).toNat : Nat) : ℚ)

/-- The longest `StrUnsignedDecimalLiteral` at the head of `cs`, evaluated; `NaN` when
there is none. -/
def parseUnsigned (cs : List Char) : JSNumber :=
  if startsWith "Infinity".data cs then JSNumber.inf false
  else
    let intDigits := cs.takeWhile isDecimalDigit
    let rest := cs.dropWhile isDecimalDigit
    match rest with
    | '.' :: afterDot =>
      let fracDigits := afterDot.takeWhile isDecimalDigit
      let rest2 := afterDot.dropWhile isDecimalDigit
      if intDigits.isEmpty && fracDigits.isEmpty then JSNumber.nan
      else
        roundToDouble (scaleDecimal (digitsValue (intDigits ++ fracDigits))
          (parseExponent rest2 - Int.ofNat fracDigits.length))
    | _ =>
      if intDigits.isEmpty then JSNumber.nan
      else roundToDouble (scaleDecimal (digitsValue intDigits) (parseExponent rest))

/-- The global function `parseFloat` on a string: leading white space is skipped, the
longest leading `StrDecimalLiteral` is evaluated and rounded to binary64, and the result
is `NaN` when the text does not begin with one. -/
def parseFloat (s : String) : JSNumber :=
  match trimStart s.data with
  | '+' :: cs => parseUnsigned cs
  | '-' :: cs => JSNumber.neg (parseUnsigned cs)
  | cs => parseUnsigned cs

/-! ## The inputs of the form -/

/-- The two options of the select of the transaction type (lines 325-326). -/
inductive TypeOption where
  | expense : TypeOption
  | income : TypeOption
  deriving DecidableEq

/-- The `value` of an option of the select. -/
def TypeOption.value : TypeOption → String
  | TypeOption.expense => "expense"
  | TypeOption.income => "income"

/-- An optional exponent that ends the text: `e` or `E`, an optional sign, one or more
digits. -/
def isExponentOrEnd (cs : List Char) : Bool :=
  match cs with
  | [] => true
  | c :: rest =>
    (c = 'e' || c = 'E') &&
      (match rest with
       | [] => false
       | s :: digits =>
         if s = '+' || s = '-' then !digits.isEmpty && digits.all isDecimalDigit
         else rest.all isDecimalDigit)

/-- A valid floating-point number of HTML without its sign: digits, or digits and a
fraction, or a fraction alone (a dot and one or more digits), then an optional exponent. -/
def isUnsignedFloatingPointNumber (cs : List Char) : Bool :=
  let intDigits := cs.takeWhile isDecimalDigit
  let rest := cs.dropWhile isDecimalDigit
  match rest with
  | '.' :: afterDot =>
    !(afterDot.takeWhile isDecimalDigit).isEmpty &&
      isExponentOrEnd (afterDot.dropWhile isDecimalDigit)
  | _ => !intDigits.isEmpty && isExponentOrEnd rest

/-- A valid floating-point number of HTML: an optional `-`, then the unsigned number. -/
def isValidFloatingPointNumber (cs : List Char) : Bool :=
  match cs with
  | '-' :: rest => isUnsignedFloatingPointNumber rest
  | _ => isUnsignedFloatingPointNumber cs

/-- The value of the amount field, an `<input type="number">` (lines 354-358), after the
text `typed` is entered: the value sanitization of HTML keeps a valid floating-point
number and replaces any other text by the empty string. -/
def numberInputValue (typed : String) : String :=
  if isValidFloatingPointNumber typed.data then typed else ""

/-! ## Data model -/

/-- One ledger entry, as `handleSubmit` builds it. -/
structure Entry where
  id : Int
  type : String
  category : String
  amount : JSNumber
  description : String
  date : String
  deriving DecidableEq

/-- The form state `formData`: every field is the text of an input element. -/
structure FormData where
  type : String
  category : String
  amount : String
  description : String
  date : String
  deriving DecidableEq

/-- The result of `calculateTotals`. -/
structure Totals where
  income : JSNumber
  expenses : JSNumber
  balance : JSNumber
  deriving DecidableEq

/-! ## Aggregation -/

/-- The function `calculateTotals` (lines 99-113), on the current `entries`. -/
def calculateTotals (entries : List Entry) : Totals :=
  let income := (entries.filter (fun e => e.type == "income")).foldl
    (fun sum e => sum + e.amount) 0
  let expenses := (entries.filter (fun e => e.type == "expense")).foldl
    (fun sum e => sum + e.amount) 0
  { income := income, expenses := expenses, balance := income - expenses }

/-- The value of one category in the result of `getCategoryTotals`. -/
structure CategoryAmounts where
  income : JSNumber
  expense : JSNumber
  deriving DecidableEq

/-- The names of the properties a plain object inherits from `Object.prototype`. -/
def objectPrototypeKeys : List String :=
  ["constructor", "__defineGetter__", "__defineSetter__", "hasOwnProperty",
   "__lookupGetter__", "__lookupSetter__", "isPrototypeOf", "propertyIsEnumerable",
   "toString", "valueOf", "__proto__", "toLocaleString"]

/-- What reading `categoryMap[key]` yields: an own property set by `getCategoryTotals`, a
built-in object inherited from `Object.prototype`, or `undefined`. -/
inductive PropertyValue where
  | own (amounts : CategoryAmounts) : PropertyValue
  | inherited : PropertyValue
  | undefined : PropertyValue
  deriving DecidableEq

/-- The property read `categoryMap[key]`: own properties first, then the prototype. -/
def getProperty (categoryMap : List (String × CategoryAmounts)) (key : String) :
    PropertyValue :=
  match categoryMap.lookup key with
  | some amounts => PropertyValue.own amounts
  | none =>
    if objectPrototypeKeys.contains key then PropertyValue.inherited
    else PropertyValue.undefined

/-- Truthiness of `categoryMap[key]`: objects and functions are truthy, `undefined` is
falsy. -/
def PropertyValue.truthy : PropertyValue → Bool
  | PropertyValue.own _ => true
  | PropertyValue.inherited => true
  | PropertyValue.undefined => false

/-- The write of an own property: the value of an existing key is replaced in place, a new
key is added after the existing ones. -/
def setOwn (categoryMap : List (String × CategoryAmounts)) (key : String)
    (amounts : CategoryAmounts) : List (String × CategoryAmounts) :=
  match categoryMap with
  | [] => [(key, amounts)]
  | (k, v) :: rest =>
    if k == key then (k, amounts) :: rest else (k, v) :: setOwn rest key amounts

/-- The body of the `forEach` callback of `getCategoryTotals` (lines 118-128).  When
`categoryMap[entry.category]` is an inherited built-in, the guard is skipped and the
`+=` writes a property of that built-in object, so the map itself is not changed. -/
def categoryStep (categoryMap : List (String × CategoryAmounts)) (entry : Entry) :
    List (String × CategoryAmounts) :=
  let categoryMap :=
    if !(getProperty categoryMap entry.category).truthy then
      setOwn categoryMap entry.category { income := 0, expense := 0 }
    else categoryMap
  match getProperty categoryMap entry.category with
  | PropertyValue.own amounts =>
    if entry.type == "income" then
      setOwn categoryMap entry.category { amounts with income := amounts.income + entry.amount }
    else
      setOwn categoryMap entry.category { amounts with expense := amounts.expense + entry.amount }
  | PropertyValue.inherited => categoryMap
  | PropertyValue.undefined => categoryMap

/-- The function `getCategoryTotals` (lines 115-131), on the current `entries`: the own
properties of the returned `categoryMap`, in the order of their creation (JavaScript
enumerates keys that look like array indices first; nothing below depends on the order). -/
def getCategoryTotals (entries : List Entry) : List (String × CategoryAmounts) :=
  entries.foldl categoryStep []

/-- The amounts of a category after the `+=` of one more entry of that category. -/
def addEntry (amounts : CategoryAmounts) (entry : Entry) : CategoryAmounts :=
  if entry.type == "income" then { amounts with income := amounts.income + entry.amount }
  else { amounts with expense := amounts.expense + entry.amount }

/-! ## Validation -/

/-- The function `validateForm` (lines 41-62): the object `newErrors` it hands to
`setErrors`, as the list of its properties, and the boolean it returns. -/
def validateForm (formData : FormData) : List (String × String) × Bool :=
  let newErrors : List (String × String) := []
  let newErrors :=
    if !truthyString (jsTrim formData.category) then
      newErrors ++ [("category", "Category is required")]
    else newErrors
  let newErrors :=
    if !truthyString formData.amount || (parseFloat formData.amount).le 0 then
      newErrors ++ [("amount", "Please enter a valid amount greater than 0")]
    else newErrors
  let newErrors :=
    if !truthyString (jsTrim formData.description) then
      newErrors ++ [("description", "Description is required")]
    else newErrors
  let newErrors :=
    if !truthyString formData.date then
      newErrors ++ [("date", "Date is required")]
    else newErrors
  (newErrors, newErrors.length == 0)

/-! ## The component state and its handlers -/

/-- The part of the component state the ledger handlers read and write, and `saved`: the
arguments of the calls of `saveData` so far, oldest first. -/
structure State where
  entries : List Entry
  formData : FormData
  errors : List (String × String)
  saved : List (List Entry)
  deriving DecidableEq

/-- The form as `useState` creates it and as `handleSubmit` resets it; `today` is
`new Date().toISOString().split(T)[0]`. -/
def emptyForm (today : String) : FormData :=
  { type := "expense", category := "", amount := "", description := "", date := today }

/-- The state of a freshly mounted component: the empty ledger. -/
def initialState (today : String) : State :=
  { entries := [], formData := emptyForm today, errors := [], saved := [] }

/-- The handler `handleSubmit` (lines 64-91); `now` is the value of `Date.now()`. -/
def handleSubmit (now : Int) (today : String) (s : State) : State :=
  let (newErrors, valid) := validateForm s.formData
  if !valid then { s with errors := newErrors }
  else
    let newEntry : Entry :=
      { id := now
        type := s.formData.type
        category := s.formData.category
        amount := parseFloat s.formData.amount
        description := s.formData.description
        date := s.formData.date }
    let newEntries := s.entries ++ [newEntry]
    { entries := newEntries
      formData := emptyForm today
      errors := []
      saved := s.saved ++ [newEntries] }

/-- The handler `handleDelete` (lines 93-97). -/
def handleDelete (id : Int) (s : State) : State :=
  let newEntries := s.entries.filter (fun entry => entry.id != id)
  { s with entries := newEntries, saved := s.saved ++ [newEntries] }

/-- An event of the tracker page: one of the five inputs of the form is changed (each
`onChange` calls `setFormData` with the value of its input, lines 322-394), the add button
is clicked, or the delete button of a row is clicked.  The text inputs and the date input
hand over their value as it is. -/
inductive Action where
  | changeType (choice : TypeOption) : Action
  | changeCategory (value : String) : Action
  | changeAmount (typed : String) : Action
  | changeDate (value : String) : Action
  | changeDescription (value : String) : Action
  | submit (now : Int) (today : String) : Action
  | delete (id : Int) : Action

/-- The state after one event. -/
def step (s : State) : Action → State
  | Action.changeType choice => { s with formData := { s.formData with type := choice.value } }
  | Action.changeCategory value => { s with formData := { s.formData with category := value } }
  | Action.changeAmount typed =>
    { s with formData := { s.formData with amount := numberInputValue typed } }
  | Action.changeDate value => { s with formData := { s.formData with date := value } }
  | Action.changeDescription value =>
    { s with formData := { s.formData with description := value } }
  | Action.submit now today => handleSubmit now today s
  | Action.delete id => handleDelete id s

/-- The state after a sequence of events. -/
def run (actions : List Action) (s : State) : State := actions.foldl step s

/-- The readings of the clock, `Date.now()`, at the clicks of the add button, in order. -/
def clockReadings : List Action → List Int
  | [] => []
  | Action.submit now _ :: rest => now :: clockReadings rest
  | _ :: rest => clockReadings rest

/-- The ids assigned to new entries along a sequence of events from the state `s`, in
order: the clock reading of every submission of a valid form. -/
def assignedIds : List Action → State → List Int
  | [], _ => []
  | Action.submit now today :: rest, s =>
    if (validateForm s.formData).2 then
      now :: assignedIds rest (step s (Action.submit now today))
    else assignedIds rest (step s (Action.submit now today))
  | a :: rest, s => assignedIds rest (step s a)

/-! ## Loading from the key-value store -/

/-- The outcome of `await window.storage.get(key)`: the promise is rejected, or it
resolves to nothing that holds a value (`null`, `undefined`, a result without `value`),
or it resolves to a result whose `value` is the stored text. -/
inductive StorageGet where
  | rejected : StorageGet
  | absent : StorageGet
  | found (value : String) : StorageGet
  deriving DecidableEq

/-- The `try` block of `loadData` (lines 24-27): the value of `entries` when the block
completes, `none` when it throws.  The store is read under the key of `saveData`; the
built-in `JSON.parse` is the argument `jsonParse`, `none` where it throws, and its result
is handed to `setEntries` as it is. -/
def loadDataTry {α : Type} (storage : String → StorageGet) (jsonParse : String → Option α)
    (entries : α) : Option α :=
  match storage "budget-entries" with
  | StorageGet.rejected => none
  | StorageGet.absent => some entries
  | StorageGet.found value =>
    if truthyString value then
      match jsonParse value with
      | some parsed => some parsed
      | none => none
    else some entries

/-- The function `loadData` (lines 22-31): the value of `entries` after it, from the
value `useState` gave it.  The `catch` block logs and leaves the state as it is. -/
def loadData {α : Type} (storage : String → StorageGet) (jsonParse : String → Option α)
    (entries : α) : α :=
  match loadDataTry storage jsonParse entries with
  | some loaded => loaded
  | none => entries

/-! ## Saving to the key-value store and exporting -/

/-- The function `saveData` (lines 33-39) on the store: when
`window.storage.set` succeeds, the key read by `loadData` holds the text
`JSON.stringify(newEntries)` and every other key is as before; when it is rejected, the
`catch` block logs and the store is as before.  The built-in `JSON.stringify` is the
argument `jsonStringify`. -/
def saveData (jsonStringify : List Entry → String) (setSucceeds : Bool)
    (storage : String → StorageGet) (newEntries : List Entry) : String → StorageGet :=
  if setSucceeds then
    fun key => if key = "budget-entries" then StorageGet.found (jsonStringify newEntries)
      else storage key
  else storage

/-- The file `exportToJSON` offers for download. -/
structure Download where
  content : String
  type : String
  name : String
  deriving DecidableEq

/-- The function `exportToJSON` (lines 133-142): the text `JSON.stringify(entries, null, 2)`
in a file named after the date of today.  The built-in with indentation 2 is the argument
`jsonStringifyPretty`. -/
def exportToJSON (jsonStringifyPretty : List Entry → String) (today : String)
    (entries : List Entry) : Download :=
  { content := jsonStringifyPretty entries
    type := "application/json"
    name := "budget-data-" ++ today ++ ".json" }

/-! ## Arithmetic of `JSNumber` -/

theorem jsAdd_def (x y : JSNumber) : x + y = JSNumber.add x y := rfl

theorem jsSub_def (x y : JSNumber) : x - y = JSNumber.add x (JSNumber.neg y) := rfl

theorem jsZero_def : (0 : JSNumber) = JSNumber.fin 0 := rfl

/-- Rounding never yields `NaN`. -/
theorem roundToDouble_isNaN (q : ℚ) : (roundToDouble q).isNaN = false := by
  unfold roundToDouble
  by_cases h0 : q = 0
  · simp [h0, JSNumber.isNaN]
  · simp only [h0, if_false]
    split_ifs <;> rfl

/-- The sum of two finite values is the rounded mathematical sum. -/
theorem fin_add_fin (a b : ℚ) : JSNumber.fin a + JSNumber.fin b = roundToDouble (a + b) := rfl

/-- Where no partial sum is rounded, the accumulation `reduce((sum, a) => sum + a, a₀)` is
the mathematical sum. -/
theorem foldl_add_exact (qs : List ℚ) (a : ℚ)
    (h : ∀ k, k < qs.length →
      roundToDouble (a + (qs.take (k + 1)).sum) = JSNumber.fin (a + (qs.take (k + 1)).sum)) :
    (qs.map JSNumber.fin).foldl (fun sum x => sum + x) (JSNumber.fin a)
      = JSNumber.fin (a + qs.sum) := by
  induction qs generalizing a with
  | nil => simp
  | cons q qs ih =>
    have h0 := h 0 (by simp)
    simp only [List.take_succ_cons, List.take_zero, List.sum_cons, List.sum_nil,
      add_zero] at h0
    rw [List.map_cons, List.foldl_cons, fin_add_fin, h0, ih (a + q), List.sum_cons, add_assoc]
    intro k hk
    have hk' := h (k + 1) (by simpa using hk)
    simpa only [List.take_succ_cons, List.sum_cons, add_assoc] using hk'

/-! ## Totals -/

/-- Claim C1: `calculateTotals` returns as income the sum of the amounts of the entries of
type income and as expenses the sum of the amounts of the entries of type expense, each
sum being the amounts added from 0 in the order of the ledger with the `+` of JavaScript,
and as balance income minus expenses; where no partial sum is rounded, income and
expenses are the mathematical sums; the empty sequence gives 0, 0, 0 and the entries
(income, 100), (expense, 40) give 100, 40, 60. -/
theorem calculateTotals_sums (entries : List Entry) :
    (calculateTotals entries).income
        = ((entries.filter (fun e => e.type = "income")).map Entry.amount).foldl
            (fun sum a => sum + a) 0 ∧
    (calculateTotals entries).expenses
        = ((entries.filter (fun e => e.type = "expense")).map Entry.amount).foldl
            (fun sum a => sum + a) 0 ∧
    (calculateTotals entries).balance
        = (calculateTotals entries).income - (calculateTotals entries).expenses ∧
    (∀ qs : List ℚ,
      (entries.filter (fun e => e.type = "income")).map Entry.amount = qs.map JSNumber.fin →
      (∀ k, k < qs.length →
        roundToDouble ((qs.take (k + 1)).sum) = JSNumber.fin ((qs.take (k + 1)).sum)) →
      (calculateTotals entries).income = JSNumber.fin qs.sum) ∧
    (∀ qs : List ℚ,
      (entries.filter (fun e => e.type = "expense")).map Entry.amount = qs.map JSNumber.fin →
      (∀ k, k < qs.length →
        roundToDouble ((qs.take (k + 1)).sum) = JSNumber.fin ((qs.take (k + 1)).sum)) →
      (calculateTotals entries).expenses = JSNumber.fin qs.sum) ∧
    calculateTotals [] = { income := 0, expenses := 0, balance := 0 } ∧
    ∀ (i j : Int) (c₁ d₁ t₁ c₂ d₂ t₂ : String),
      calculateTotals
          [{ id := i, type := "income", category := c₁, amount := JSNumber.fin 100,
             description := d₁, date := t₁ },
           { id := j, type := "expense", category := c₂, amount := JSNumber.fin 40,
             description := d₂, date := t₂ }]
        = { income := JSNumber.fin 100, expenses := JSNumber.fin 40,
            balance := JSNumber.fin 60 } := by
  have hi : (calculateTotals entries).income
      = ((entries.filter (fun e => e.type = "income")).map Entry.amount).foldl
          (fun sum a => sum + a) 0 := by
    simp only [calculateTotals, List.foldl_map]
    congr 2
  have he : (calculateTotals entries).expenses
      = ((entries.filter (fun e => e.type = "expense")).map Entry.amount).foldl
          (fun sum a => sum + a) 0 := by
    simp only [calculateTotals, List.foldl_map]
    congr 2
  refine ⟨hi, he, rfl, ?_, ?_, ?_, ?_⟩
  · intro qs hqs hexact
    rw [hi, hqs, jsZero_def, foldl_add_exact qs 0 (by simpa using hexact), zero_add]
  · intro qs hqs hexact
    rw [he, hqs, jsZero_def, foldl_add_exact qs 0 (by simpa using hexact), zero_add]
  · decide!
  · intro i j c₁ d₁ t₁ c₂ d₂ t₂
    have h1 : (0 : JSNumber) + JSNumber.fin 100 = JSNumber.fin 100 := by decide!
    have h2 : (0 : JSNumber) + JSNumber.fin 40 = JSNumber.fin 40 := by decide!
    have h3 : JSNumber.fin 100 - JSNumber.fin 40 = JSNumber.fin 60 := by decide!
    have s1 : (("income" : String) == "expense") = false := by decide
    have s2 : (("expense" : String) == "income") = false := by decide
    simp [calculateTotals, h1, h2, h3, s1, s2]

/-- A ledger for `calculateTotals_sums`: the incomes 0.5 and 0.25 add without rounding,
so the income is their mathematical sum. -/
theorem calculateTotals_sums_witness :
    (calculateTotals
      [{ id := 1, type := "income", category := "Salary", amount := JSNumber.fin (1 / 2),
         description := "Pay", date := "2024-01-01" },
       { id := 2, type := "expense", category := "Food", amount := JSNumber.fin 40,
         description := "Lunch", date := "2024-01-02" },
       { id := 3, type := "income", category := "Gift", amount := JSNumber.fin (1 / 4),
         description := "Card", date := "2024-01-03" }]).income
      = JSNumber.fin ([1 / 2, 1 / 4] : List ℚ).sum :=
  (calculateTotals_sums _).2.2.2.1 [1 / 2, 1 / 4] (by decide!) (by
    intro k hk
    have hk2 : k = 0 ∨ k = 1 := by
      simp only [List.length_cons, List.length_nil] at hk
      omega
    rcases hk2 with rfl | rfl <;> decide!)

/-! ## Per-category totals -/

theorem lookup_cons_self (k : String) (v : CategoryAmounts)
    (m : List (String × CategoryAmounts)) : ((k, v) :: m).lookup k = some v := by
  simp [List.lookup]

theorem lookup_cons_ne (k c : String) (v : CategoryAmounts)
    (m : List (String × CategoryAmounts)) (h : k ≠ c) :
    ((k, v) :: m).lookup c = m.lookup c := by
  have hb : (c == k) = false := by simpa using fun e : c = k => h e.symm
  simp [List.lookup, hb]

theorem lookup_setOwn_self (m : List (String × CategoryAmounts)) (k : String)
    (v : CategoryAmounts) : (setOwn m k v).lookup k = some v := by
  induction m with
  | nil => simp [setOwn, List.lookup]
  | cons p m ih =>
    obtain ⟨k', v'⟩ := p
    by_cases h : k' = k
    · subst h; simp [setOwn, lookup_cons_self]
    · simp [setOwn, h, lookup_cons_ne _ _ _ _ h, ih]

theorem lookup_setOwn_ne (m : List (String × CategoryAmounts)) (k c : String)
    (v : CategoryAmounts) (h : k ≠ c) : (setOwn m k v).lookup c = m.lookup c := by
  induction m with
  | nil => simp [setOwn, lookup_cons_ne _ _ _ _ h]
  | cons p m ih =>
    obtain ⟨k', v'⟩ := p
    by_cases hk : k' = k
    · subst hk
      simp [setOwn, lookup_cons_ne _ _ _ _ h]
    · by_cases hc : k' = c
      · subst hc
        simp [setOwn, hk, lookup_cons_self]
      · simp [setOwn, hk, lookup_cons_ne _ _ _ _ hc, ih]

theorem getProperty_of_lookup_some {m : List (String × CategoryAmounts)} {k : String}
    {a : CategoryAmounts} (h : m.lookup k = some a) :
    getProperty m k = PropertyValue.own a := by
  simp [getProperty, h]

theorem getProperty_of_not_inherited {m : List (String × CategoryAmounts)} {k : String}
    (h : m.lookup k = none) (hk : k ∉ objectPrototypeKeys) :
    getProperty m k = PropertyValue.undefined := by
  simp [getProperty, h, hk]

theorem getProperty_of_inherited {m : List (String × CategoryAmounts)} {k : String}
    (h : m.lookup k = none) (hk : k ∈ objectPrototypeKeys) :
    getProperty m k = PropertyValue.inherited := by
  simp [getProperty, h, hk]

/-- One step of the loop on an entry whose category is an own key. -/
theorem categoryStep_of_own {m : List (String × CategoryAmounts)} {e : Entry}
    {a : CategoryAmounts} (h : m.lookup e.category = some a) :
    categoryStep m e = setOwn m e.category (addEntry a e) := by
  have hp := getProperty_of_lookup_some h
  simp only [categoryStep, hp, PropertyValue.truthy, addEntry]
  split_ifs <;> simp_all

/-- One step of the loop on an entry whose category is neither an own key nor inherited. -/
theorem categoryStep_of_undefined {m : List (String × CategoryAmounts)} {e : Entry}
    (h : m.lookup e.category = none) (hk : e.category ∉ objectPrototypeKeys) :
    categoryStep m e
      = setOwn (setOwn m e.category { income := 0, expense := 0 }) e.category
          (addEntry { income := 0, expense := 0 } e) := by
  have hp := getProperty_of_not_inherited h hk
  have hp2 := getProperty_of_lookup_some
    (lookup_setOwn_self m e.category { income := 0, expense := 0 })
  simp only [categoryStep, hp, PropertyValue.truthy, addEntry]
  simp only [Bool.not_false, if_true, hp2]
  split_ifs <;> simp_all

/-- One step of the loop on an entry whose category names an inherited property. -/
theorem categoryStep_of_inherited {m : List (String × CategoryAmounts)} {e : Entry}
    (h : m.lookup e.category = none) (hk : e.category ∈ objectPrototypeKeys) :
    categoryStep m e = m := by
  have hp := getProperty_of_inherited h hk
  simp [categoryStep, hp, PropertyValue.truthy]

theorem lookup_categoryStep_ne (m : List (String × CategoryAmounts)) (e : Entry) (c : String)
    (h : e.category ≠ c) : (categoryStep m e).lookup c = m.lookup c := by
  cases hm : m.lookup e.category with
  | some a => rw [categoryStep_of_own hm, lookup_setOwn_ne _ _ _ _ h]
  | none =>
    by_cases hk : e.category ∈ objectPrototypeKeys
    · rw [categoryStep_of_inherited hm hk]
    · rw [categoryStep_of_undefined hm hk, lookup_setOwn_ne _ _ _ _ h,
        lookup_setOwn_ne _ _ _ _ h]

theorem lookup_categoryStep_self (m : List (String × CategoryAmounts)) (e : Entry)
    (h : e.category ∉ objectPrototypeKeys) :
    (categoryStep m e).lookup e.category
      = some (addEntry ((m.lookup e.category).getD { income := 0, expense := 0 }) e) := by
  cases hm : m.lookup e.category with
  | some a => rw [categoryStep_of_own hm, lookup_setOwn_self]; rfl
  | none => rw [categoryStep_of_undefined hm h, lookup_setOwn_self]; rfl


theorem lookup_foldl_categoryStep (c : String) (hc : c ∉ objectPrototypeKeys)
    (es : List Entry) (m : List (String × CategoryAmounts)) :
    (es.foldl categoryStep m).lookup c
      = es.foldl (fun o e =>
          if e.category = c then some (addEntry (o.getD { income := 0, expense := 0 }) e)
          else o) (m.lookup c) := by
  induction es generalizing m with
  | nil => rfl
  | cons e es ih =>
    rw [List.foldl_cons, List.foldl_cons, ih]
    by_cases h : e.category = c
    · have hk : e.category ∉ objectPrototypeKeys := by rw [h]; exact hc
      rw [if_pos h, ← h, lookup_categoryStep_self m e hk]
    · rw [if_neg h, lookup_categoryStep_ne m e c h]

theorem filter_category_eq_nil (c : String) (es : List Entry) (p : Entry → Bool)
    (h : ¬ ∃ e ∈ es, e.category = c) :
    es.filter (fun e => decide (e.category = c) && p e) = [] := by
  rw [List.filter_eq_nil_iff]
  intro x hx hp
  simp only [Bool.and_eq_true, decide_eq_true_eq] at hp
  exact h ⟨x, hx, hp.1⟩

theorem tally_eq_sums (c : String) (es : List Entry) (o : Option CategoryAmounts) :
    es.foldl (fun o e =>
        if e.category = c then some (addEntry (o.getD { income := 0, expense := 0 }) e)
        else o) o
      = if ∃ e ∈ es, e.category = c then
          some
            { income :=
                ((es.filter (fun e => e.category = c ∧ e.type = "income")).map
                  Entry.amount).foldl (fun sum a => sum + a)
                  (o.getD { income := 0, expense := 0 }).income
              expense :=
                ((es.filter (fun e => e.category = c ∧ e.type ≠ "income")).map
                  Entry.amount).foldl (fun sum a => sum + a)
                  (o.getD { income := 0, expense := 0 }).expense }
        else o := by
  induction es generalizing o with
  | nil => simp
  | cons e es ih =>
    rw [List.foldl_cons, ih]
    by_cases h : e.category = c
    · by_cases hex : ∃ e ∈ es, e.category = c
      · by_cases ht : e.type = "income" <;> simp [h, ht, hex, addEntry]
      · have f1 := filter_category_eq_nil c es (fun e => decide (e.type = "income")) hex
        have f2 := filter_category_eq_nil c es (fun e => !decide (e.type = "income")) hex
        by_cases ht : e.type = "income" <;>
          simp [h, ht, hex, addEntry, f1, f2]
    · by_cases hex : ∃ e ∈ es, e.category = c
      · simp [h, hex]
      · simp [h, hex]

/-- For a category that is not the name of an inherited property, `getCategoryTotals` has
the key exactly when some entry has that category, and then holds the amounts of the
income entries of the category and the amounts of its other entries, each added from 0
in the order of the ledger. -/
theorem getCategoryTotals_lookup (entries : List Entry) (c : String)
    (hc : c ∉ objectPrototypeKeys) :
    (getCategoryTotals entries).lookup c
      = if ∃ e ∈ entries, e.category = c then
          some
            { income :=
                ((entries.filter (fun e => e.category = c ∧ e.type = "income")).map
                  Entry.amount).foldl (fun sum a => sum + a) 0
              expense :=
                ((entries.filter (fun e => e.category = c ∧ e.type ≠ "income")).map
                  Entry.amount).foldl (fun sum a => sum + a) 0 }
        else none := by
  rw [getCategoryTotals, lookup_foldl_categoryStep c hc, tally_eq_sums]
  simp

/-- An inherited name never becomes an own key of the map `getCategoryTotals` builds. -/
theorem lookup_foldl_categoryStep_inherited (c : String) (hc : c ∈ objectPrototypeKeys)
    (es : List Entry) (m : List (String × CategoryAmounts))
    (hm : ∀ k ∈ objectPrototypeKeys, m.lookup k = none) :
    (es.foldl categoryStep m).lookup c = none := by
  induction es generalizing m with
  | nil => exact hm c hc
  | cons e es ih =>
    rw [List.foldl_cons]
    apply ih
    intro k hk
    by_cases h : e.category ∈ objectPrototypeKeys
    · rw [categoryStep_of_inherited (hm _ h) h]
      exact hm k hk
    · have hne : e.category ≠ k := fun heq => h (heq ▸ hk)
      rw [lookup_categoryStep_ne m e k hne]
      exact hm k hk

/-- Entries whose category is the name of an inherited property leave no key in the
result of `getCategoryTotals`. -/
theorem getCategoryTotals_lookup_inherited (entries : List Entry) (c : String)
    (hc : c ∈ objectPrototypeKeys) : (getCategoryTotals entries).lookup c = none :=
  lookup_foldl_categoryStep_inherited c hc entries [] (fun _ _ => rfl)

/-- The example of the specification: one expense of 20 and one income of 5 in the
category Food. -/
theorem getCategoryTotals_food (i j : Int) (d₁ t₁ d₂ t₂ : String) :
    getCategoryTotals
        [{ id := i, type := "expense", category := "Food", amount := JSNumber.fin 20,
           description := d₁, date := t₁ },
         { id := j, type := "income", category := "Food", amount := JSNumber.fin 5,
           description := d₂, date := t₂ }]
      = [("Food", { income := JSNumber.fin 5, expense := JSNumber.fin 20 })] := by
  have h : ("Food" : String) ∉ objectPrototypeKeys := by decide
  have h1 : (0 : JSNumber) + JSNumber.fin 20 = JSNumber.fin 20 := by decide!
  have h2 : (0 : JSNumber) + JSNumber.fin 5 = JSNumber.fin 5 := by decide!
  have s1 : (("expense" : String) == "income") = false := by decide
  simp [getCategoryTotals, categoryStep, getProperty, h, PropertyValue.truthy, setOwn,
    List.lookup, h1, h2, s1]

/-- Claim C2, at an input where the code departs from it: an expense of 20 in a category
named constructor.  The read `categoryMap[entry.category]` finds the inherited
`Object.prototype.constructor`, the guard is skipped, and the returned map has no key at
all although an entry has that category. -/
theorem getCategoryTotals_constructor_dropped :
    getCategoryTotals
        [{ id := 1, type := "expense", category := "constructor",
           amount := JSNumber.fin 20, description := "fee", date := "2024-01-01" }]
      = [] := by
  decide

/-! ## Validation -/

theorem dropWhile_head_not {α : Type} (p : α → Bool) (l : List α) (a : α) (t : List α)
    (h : l.dropWhile p = a :: t) : p a = false := by
  induction l with
  | nil => simp at h
  | cons x l ih =>
    by_cases hx : p x = true
    · rw [List.dropWhile_cons_of_pos hx] at h
      exact ih h
    · rw [List.dropWhile_cons_of_neg hx] at h
      cases h
      simpa using hx

/-- The method `trim` yields the empty string exactly on a text that is empty or holds
white space only. -/
theorem jsTrim_eq_empty_iff (s : String) :
    truthyString (jsTrim s) = false ↔ ∀ c ∈ s.data, isWhiteSpace c = true := by
  have key : trimEnd (trimStart s.data) = [] ↔ trimStart s.data = [] := by
    constructor
    · intro h
      unfold trimEnd at h
      rw [List.reverse_eq_nil_iff, List.dropWhile_eq_nil_iff] at h
      cases hl : trimStart s.data with
      | nil => rfl
      | cons a t =>
        have ha : isWhiteSpace a = false := dropWhile_head_not _ _ _ _ hl
        have := h a (by rw [hl]; simp)
        rw [ha] at this
        cases this
    · intro h
      rw [h]; rfl
  have e1 : truthyString (jsTrim s) = false ↔ trimEnd (trimStart s.data) = [] := by
    simp [truthyString, jsTrim]
  rw [e1, key, trimStart, List.dropWhile_eq_nil_iff]

theorem truthyString_eq_false_iff (s : String) : truthyString s = false ↔ s = "" := by
  constructor
  · intro h
    have : s.data = [] := by simpa [truthyString] using h
    exact String.ext this
  · rintro rfl; rfl


theorem isWhiteSpace_of_isDecimalDigit (c : Char) (h : isDecimalDigit c = true) :
    isWhiteSpace c = false := by
  simp only [isDecimalDigit, Bool.and_eq_true, decide_eq_true_eq] at h
  simp only [isWhiteSpace, Bool.or_eq_false_iff, Bool.and_eq_false_imp, decide_eq_false_iff_not,
    decide_eq_true_eq]
  omega

/-- A valid unsigned number begins with a digit or with the dot. -/
theorem head_of_isUnsignedFloatingPointNumber (cs : List Char)
    (h : isUnsignedFloatingPointNumber cs = true) :
    ∃ c t, cs = c :: t ∧ (isDecimalDigit c = true ∨ c = '.') := by
  cases cs with
  | nil => simp [isUnsignedFloatingPointNumber] at h
  | cons c t =>
    refine ⟨c, t, rfl, ?_⟩
    by_cases hd : isDecimalDigit c = true
    · exact Or.inl hd
    · right
      have hdrop : (c :: t).dropWhile isDecimalDigit = c :: t :=
        List.dropWhile_cons_of_neg hd
      have htake : (c :: t).takeWhile isDecimalDigit = [] :=
        List.takeWhile_cons_of_neg hd
      unfold isUnsignedFloatingPointNumber at h
      simp only [hdrop, htake] at h
      split at h
      · rename_i afterDot heq
        cases heq
        rfl
      · simp at h

/-- On a valid unsigned number the scan of `parseFloat` finds a literal. -/
theorem parseUnsigned_isNaN_of_valid (cs : List Char)
    (h : isUnsignedFloatingPointNumber cs = true) : (parseUnsigned cs).isNaN = false := by
  unfold parseUnsigned
  split_ifs with hinf
  · rfl
  · unfold isUnsignedFloatingPointNumber at h
    simp only at h ⊢
    split at h
    · rename_i afterDot heq
      simp only [Bool.and_eq_true, Bool.not_eq_true'] at h
      have hfrac : (afterDot.takeWhile isDecimalDigit).isEmpty = false := h.1
      split_ifs with hempty
      · simp [hfrac] at hempty
      · exact roundToDouble_isNaN _
    · rename_i hne
      simp only [Bool.and_eq_true, Bool.not_eq_true'] at h
      have hint : (cs.takeWhile isDecimalDigit).isEmpty = false := h.1
      split_ifs with hempty
      · simp [hint] at hempty
      · exact roundToDouble_isNaN _

/-- On a valid floating-point number `parseFloat` yields a number. -/
theorem parseFloat_isNaN_of_valid (s : String)
    (h : isValidFloatingPointNumber s.data = true) : (parseFloat s).isNaN = false := by
  unfold parseFloat trimStart
  cases hs : s.data with
  | nil => rw [hs] at h; simp [isValidFloatingPointNumber, isUnsignedFloatingPointNumber] at h
  | cons c t =>
    rw [hs] at h
    by_cases hm : c = '-'
    · subst hm
      have hv : isUnsignedFloatingPointNumber t = true := by
        simpa [isValidFloatingPointNumber] using h
      have hw : isWhiteSpace '-' = false := by decide
      rw [List.dropWhile_cons_of_neg (by simp [hw])]
      have := parseUnsigned_isNaN_of_valid t hv
      cases hp : parseUnsigned t <;> simp_all [JSNumber.neg, JSNumber.isNaN]
    · have hv : isUnsignedFloatingPointNumber (c :: t) = true := by
        unfold isValidFloatingPointNumber at h
        split at h
        · rename_i rest heq
          cases heq
          exact absurd rfl hm
        · exact h
      obtain ⟨c', t', hct, hhead⟩ := head_of_isUnsignedFloatingPointNumber _ hv
      cases hct
      have hw : isWhiteSpace c = false := by
        rcases hhead with hd | hd
        · exact isWhiteSpace_of_isDecimalDigit c hd
        · subst hd; decide
      have hp : c ≠ '+' := by
        rcases hhead with hd | hd
        · intro hc; subst hc; revert hd; decide
        · subst hd; decide
      rw [List.dropWhile_cons_of_neg (by simp [hw])]
      split
      · rename_i cs heq
        cases heq
        exact absurd rfl hp
      · rename_i cs heq
        cases heq
        exact absurd rfl hm
      · exact parseUnsigned_isNaN_of_valid _ hv

/-- The value of the amount field is empty or a valid floating-point number. -/
theorem numberInputValue_cases (typed : String) :
    numberInputValue typed = "" ∨
      isValidFloatingPointNumber (numberInputValue typed).data = true := by
  unfold numberInputValue
  by_cases h : isValidFloatingPointNumber typed.data = true
  · right; simp [h]
  · left; simp [h]

theorem gt_zero_of_not_le_zero (x : JSNumber) (h : x.le 0 = false) (hn : x.isNaN = false) :
    x.gt 0 = true := by
  cases x with
  | nan => simp [JSNumber.isNaN] at hn
  | fin q =>
    simp only [jsZero_def, JSNumber.le, decide_eq_false_iff_not, not_le] at h
    simp [jsZero_def, JSNumber.gt, h]
  | inf s =>
    simp only [jsZero_def, JSNumber.le] at h
    simp [jsZero_def, JSNumber.gt, h]

/-- The error keys of `validateForm`, one condition per key. -/
theorem validateForm_fst (f : FormData) :
    (validateForm f).1
      = (if truthyString (jsTrim f.category) then []
          else [("category", "Category is required")]) ++
        ((if !truthyString f.amount || (parseFloat f.amount).le 0 then
            [("amount", "Please enter a valid amount greater than 0")]
          else []) ++
        ((if truthyString (jsTrim f.description) then []
          else [("description", "Description is required")]) ++
        (if truthyString f.date then [] else [("date", "Date is required")]))) := by
  rcases Bool.eq_false_or_eq_true (truthyString (jsTrim f.category)) with h1 | h1 <;>
  rcases Bool.eq_false_or_eq_true (!truthyString f.amount || (parseFloat f.amount).le 0)
    with h2 | h2 <;>
  rcases Bool.eq_false_or_eq_true (truthyString (jsTrim f.description)) with h3 | h3 <;>
  rcases Bool.eq_false_or_eq_true (truthyString f.date) with h4 | h4 <;>
  simp only [validateForm, h1, h2, h3, h4] <;> rfl

theorem validateForm_snd (f : FormData) :
    (validateForm f).2 = ((validateForm f).1.length == 0) := rfl

/-- The amount key is set exactly when the amount text is empty or `parseFloat` of it
compares `<= 0`. -/
theorem amount_key_iff (f : FormData) :
    "amount" ∈ (validateForm f).1.map Prod.fst
      ↔ f.amount = "" ∨ (parseFloat f.amount).le 0 = true := by
  rw [validateForm_fst, ← truthyString_eq_false_iff]
  rcases Bool.eq_false_or_eq_true (truthyString (jsTrim f.category)) with h1 | h1 <;>
  rcases Bool.eq_false_or_eq_true (truthyString f.amount) with h2 | h2 <;>
  rcases Bool.eq_false_or_eq_true ((parseFloat f.amount).le 0) with h5 | h5 <;>
  rcases Bool.eq_false_or_eq_true (truthyString (jsTrim f.description)) with h3 | h3 <;>
  rcases Bool.eq_false_or_eq_true (truthyString f.date) with h4 | h4 <;>
  simp [h1, h2, h3, h4, h5]

/-- Claim C3: for every text typed into the amount field, `validateForm` reports an amount
error iff the value of the field is missing (the empty text, which the field also holds
after a text that is not a number), does not parse to a number, or parses to a value
`<= 0`; when no amount error is reported the value parses to a number strictly greater
than 0; a text that is not numeric, such as abc, is rejected. -/
theorem validateForm_amount_check (f : FormData) (typed : String) :
    ("amount" ∈ (validateForm { f with amount := numberInputValue typed }).1.map Prod.fst
      ↔ numberInputValue typed = "" ∨
        (parseFloat (numberInputValue typed)).isNaN = true ∨
        (parseFloat (numberInputValue typed)).le 0 = true) ∧
    ("amount" ∉ (validateForm { f with amount := numberInputValue typed }).1.map Prod.fst →
      (parseFloat (numberInputValue typed)).isNaN = false ∧
      (parseFloat (numberInputValue typed)).gt 0 = true) ∧
    (isValidFloatingPointNumber typed.data = false →
      "amount" ∈ (validateForm { f with amount := numberInputValue typed }).1.map Prod.fst) ∧
    numberInputValue "abc" = "" ∧
    "amount" ∈ (validateForm { f with amount := numberInputValue "abc" }).1.map Prod.fst := by
  have hkey : ∀ t : String,
      "amount" ∈ (validateForm { f with amount := numberInputValue t }).1.map Prod.fst
        ↔ numberInputValue t = "" ∨ (parseFloat (numberInputValue t)).le 0 = true :=
    fun t => amount_key_iff { f with amount := numberInputValue t }
  have hnan : ∀ t : String, numberInputValue t ≠ "" →
      (parseFloat (numberInputValue t)).isNaN = false := by
    intro t ht
    rcases numberInputValue_cases t with h | h
    · exact absurd h ht
    · exact parseFloat_isNaN_of_valid _ h
  have habc : numberInputValue "abc" = "" := by decide
  refine ⟨?_, ?_, ?_, habc, ?_⟩
  · rw [hkey]
    constructor
    · rintro (h | h)
      · exact Or.inl h
      · exact Or.inr (Or.inr h)
    · rintro (h | h | h)
      · exact Or.inl h
      · by_cases he : numberInputValue typed = ""
        · exact Or.inl he
        · rw [hnan typed he] at h
          cases h
      · exact Or.inr h
  · intro hno
    rw [hkey, not_or] at hno
    have hn := hnan typed hno.1
    have hle : (parseFloat (numberInputValue typed)).le 0 = false := by
      simpa using hno.2
    exact ⟨hn, gt_zero_of_not_le_zero _ hle hn⟩
  · intro hinv
    rw [hkey]
    left
    simp [numberInputValue, hinv]
  · rw [hkey]
    exact Or.inl habc

/-- An amount for `validateForm_amount_check`: the text 12.5 gets no amount error and
parses to a number greater than 0. -/
theorem validateForm_amount_check_witness :
    (parseFloat (numberInputValue "12.5")).isNaN = false ∧
    (parseFloat (numberInputValue "12.5")).gt 0 = true :=
  (validateForm_amount_check
      { type := "expense", category := "Food", amount := "", description := "Lunch",
        date := "2024-01-02" } "12.5").2.1 (by decide!)

/-- Claim C4: `validateForm` checks the four fields independently.  The error mapping has
the key category iff the category is empty or white space only, the key description iff
the description is empty or white space only, the key date iff the date is empty, and the
key amount iff the amount check of line 48 fails, whatever the other fields hold; the
form is valid iff the mapping is empty; and the form with an empty category, amount -5,
an empty description and an empty date gets all four errors at once. -/
theorem validateForm_independent (f : FormData) :
    ("category" ∈ (validateForm f).1.map Prod.fst
      ↔ ∀ ch ∈ f.category.data, isWhiteSpace ch = true) ∧
    ("description" ∈ (validateForm f).1.map Prod.fst
      ↔ ∀ ch ∈ f.description.data, isWhiteSpace ch = true) ∧
    ("date" ∈ (validateForm f).1.map Prod.fst ↔ f.date = "") ∧
    ("amount" ∈ (validateForm f).1.map Prod.fst
      ↔ f.amount = "" ∨ (parseFloat f.amount).le 0 = true) ∧
    ((validateForm f).2 = true ↔ (validateForm f).1 = []) ∧
    (∀ k ∈ (validateForm f).1.map Prod.fst,
      k = "category" ∨ k = "amount" ∨ k = "description" ∨ k = "date") ∧
    ∀ t : String,
      validateForm
          { type := t, category := "", amount := "-5", description := "", date := "" }
        = ([("category", "Category is required"),
            ("amount", "Please enter a valid amount greater than 0"),
            ("description", "Description is required"),
            ("date", "Date is required")], false) := by
  refine ⟨?_, ?_, ?_, amount_key_iff f, ?_, ?_, ?_⟩
  · rw [← jsTrim_eq_empty_iff, validateForm_fst]
    rcases Bool.eq_false_or_eq_true (truthyString (jsTrim f.category)) with h1 | h1 <;>
    rcases Bool.eq_false_or_eq_true (!truthyString f.amount || (parseFloat f.amount).le 0)
      with h2 | h2 <;>
    rcases Bool.eq_false_or_eq_true (truthyString (jsTrim f.description)) with h3 | h3 <;>
    rcases Bool.eq_false_or_eq_true (truthyString f.date) with h4 | h4 <;>
    simp [h1, h2, h3, h4]
  · rw [← jsTrim_eq_empty_iff, validateForm_fst]
    rcases Bool.eq_false_or_eq_true (truthyString (jsTrim f.category)) with h1 | h1 <;>
    rcases Bool.eq_false_or_eq_true (!truthyString f.amount || (parseFloat f.amount).le 0)
      with h2 | h2 <;>
    rcases Bool.eq_false_or_eq_true (truthyString (jsTrim f.description)) with h3 | h3 <;>
    rcases Bool.eq_false_or_eq_true (truthyString f.date) with h4 | h4 <;>
    simp [h1, h2, h3, h4]
  · rw [← truthyString_eq_false_iff, validateForm_fst]
    rcases Bool.eq_false_or_eq_true (truthyString (jsTrim f.category)) with h1 | h1 <;>
    rcases Bool.eq_false_or_eq_true (!truthyString f.amount || (parseFloat f.amount).le 0)
      with h2 | h2 <;>
    rcases Bool.eq_false_or_eq_true (truthyString (jsTrim f.description)) with h3 | h3 <;>
    rcases Bool.eq_false_or_eq_true (truthyString f.date) with h4 | h4 <;>
    simp [h1, h2, h3, h4]
  · rw [validateForm_snd]
    simp
  · rw [validateForm_fst]
    rcases Bool.eq_false_or_eq_true (truthyString (jsTrim f.category)) with h1 | h1 <;>
    rcases Bool.eq_false_or_eq_true (!truthyString f.amount || (parseFloat f.amount).le 0)
      with h2 | h2 <;>
    rcases Bool.eq_false_or_eq_true (truthyString (jsTrim f.description)) with h3 | h3 <;>
    rcases Bool.eq_false_or_eq_true (truthyString f.date) with h4 | h4 <;>
    simp [h1, h2, h3, h4]
  · intro t
    have h1 : truthyString (jsTrim "") = false := by decide
    have h2 : (!truthyString "-5" || (parseFloat "-5").le 0) = true := by decide!
    have h4 : truthyString "" = false := by decide
    rw [Prod.ext_iff, validateForm_snd, validateForm_fst]
    simp only [h1, h2, h4]
    decide

/-! ## The handlers -/

/-- The handler `handleSubmit` on a form that passes `validateForm`. -/
theorem handleSubmit_of_valid (now : Int) (today : String) (s : State)
    (h : (validateForm s.formData).2 = true) :
    handleSubmit now today s
      = { entries := s.entries ++
            [{ id := now, type := s.formData.type, category := s.formData.category,
               amount := parseFloat s.formData.amount,
               description := s.formData.description, date := s.formData.date }]
          formData := emptyForm today
          errors := []
          saved := s.saved ++
            [s.entries ++
              [{ id := now, type := s.formData.type, category := s.formData.category,
                 amount := parseFloat s.formData.amount,
                 description := s.formData.description, date := s.formData.date }]] } := by
  simp [handleSubmit, h]

/-- The handler `handleSubmit` on a form that fails `validateForm`. -/
theorem handleSubmit_of_invalid (now : Int) (today : String) (s : State)
    (h : (validateForm s.formData).2 = false) :
    handleSubmit now today s = { s with errors := (validateForm s.formData).1 } := by
  simp [handleSubmit, h]

/-- An invariant of every event, along the events that satisfy `Q`, holds after a run. -/
theorem run_invariant (P : State → Prop) (Q : Action → Prop)
    (hstep : ∀ s a, Q a → P s → P (step s a)) (actions : List Action) (s : State)
    (hQ : ∀ a ∈ actions, Q a) (hs : P s) : P (run actions s) := by
  induction actions generalizing s with
  | nil => exact hs
  | cons a actions ih =>
    rw [run, List.foldl_cons]
    exact ih (step s a) (fun b hb => hQ b (List.mem_cons_of_mem a hb))
      (hstep s a (hQ a (List.mem_cons_self a actions)) hs)

/-- A valid form has a category and a description that are not blank, a date, and an
amount text that is not empty and does not parse to a value `<= 0`. -/
theorem valid_form_fields (f : FormData) (h : (validateForm f).2 = true) :
    (¬ ∀ ch ∈ f.category.data, isWhiteSpace ch = true) ∧
    (¬ ∀ ch ∈ f.description.data, isWhiteSpace ch = true) ∧
    f.date ≠ "" ∧ f.amount ≠ "" ∧ (parseFloat f.amount).le 0 = false := by
  have hnil : (validateForm f).1 = [] := by
    rw [validateForm_snd] at h
    simpa using h
  rw [validateForm_fst] at hnil
  simp only [List.append_eq_nil] at hnil
  obtain ⟨h1, h2, h3, h4⟩ := hnil
  have c1 : truthyString (jsTrim f.category) = true := by
    by_contra hc; simp [hc] at h1
  have c2 : (!truthyString f.amount || (parseFloat f.amount).le 0) = false := by
    by_contra hc; simp only [Bool.not_eq_false] at hc; rw [hc] at h2; simp at h2
  have c3 : truthyString (jsTrim f.description) = true := by
    by_contra hc; simp [hc] at h3
  have c4 : truthyString f.date = true := by
    by_contra hc; simp [hc] at h4
  simp only [Bool.or_eq_false_iff, Bool.not_eq_false'] at c2
  refine ⟨?_, ?_, ?_, ?_, c2.2⟩
  · rw [← jsTrim_eq_empty_iff, c1]; simp
  · rw [← jsTrim_eq_empty_iff, c3]; simp
  · rw [Ne, ← truthyString_eq_false_iff, c4]; simp
  · rw [Ne, ← truthyString_eq_false_iff, c2.1]; simp

theorem mem_filter_of_mem_handleDelete {id : Int} {s : State} {e : Entry}
    (h : e ∈ (handleDelete id s).entries) : e ∈ s.entries := by
  simp only [handleDelete] at h
  exact (List.mem_filter.mp h).1


/-- The entries of the ledger after one event come from the ledger before it, or are the
entry a valid submission builds from the form. -/
theorem mem_entries_step (s : State) (a : Action) (e : Entry)
    (he : e ∈ (step s a).entries) :
    e ∈ s.entries ∨
    ((validateForm s.formData).2 = true ∧ e.type = s.formData.type ∧
      e.category = s.formData.category ∧ e.amount = parseFloat s.formData.amount ∧
      e.description = s.formData.description ∧ e.date = s.formData.date) := by
  cases a with
  | changeType choice => exact Or.inl he
  | changeCategory value => exact Or.inl he
  | changeAmount typed => exact Or.inl he
  | changeDate value => exact Or.inl he
  | changeDescription value => exact Or.inl he
  | delete id => exact Or.inl (mem_filter_of_mem_handleDelete he)
  | submit now today =>
    rcases Bool.eq_false_or_eq_true (validateForm s.formData).2 with h | h
    · simp only [step, handleSubmit_of_valid now today s h, List.mem_append,
        List.mem_singleton] at he
      rcases he with he | he
      · exact Or.inl he
      · subst he
        exact Or.inr ⟨h, rfl, rfl, rfl, rfl, rfl⟩
    · simp only [step, handleSubmit_of_invalid now today s h] at he
      exact Or.inl he

/-- The form after one event holds a type of the select and an amount of the number
input, when the form before it did. -/
theorem form_inputs_step (s : State) (a : Action)
    (ht : s.formData.type = "income" ∨ s.formData.type = "expense")
    (ha : s.formData.amount = "" ∨ isValidFloatingPointNumber s.formData.amount.data = true) :
    ((step s a).formData.type = "income" ∨ (step s a).formData.type = "expense") ∧
    ((step s a).formData.amount = "" ∨
      isValidFloatingPointNumber (step s a).formData.amount.data = true) := by
  cases a with
  | changeType choice =>
    refine ⟨?_, ha⟩
    cases choice
    · exact Or.inr rfl
    · exact Or.inl rfl
  | changeCategory value => exact ⟨ht, ha⟩
  | changeAmount typed => exact ⟨ht, numberInputValue_cases typed⟩
  | changeDate value => exact ⟨ht, ha⟩
  | changeDescription value => exact ⟨ht, ha⟩
  | delete id => exact ⟨ht, ha⟩
  | submit now today =>
    rcases Bool.eq_false_or_eq_true (validateForm s.formData).2 with h | h
    · simp [step, handleSubmit_of_valid now today s h, emptyForm]
    · simp only [step, handleSubmit_of_invalid now today s h]
      exact ⟨ht, ha⟩

/-- Claim C5: in every state reached from the empty ledger by changes of the inputs of the
form, submissions and deletions, every stored entry has a type that is income or expense,
a category that is not blank, an amount that is a number strictly greater than 0, a
description that is not blank, and a date. -/
theorem stored_entries_valid (today : String) (actions : List Action) :
    ∀ e ∈ (run actions (initialState today)).entries,
      (e.type = "income" ∨ e.type = "expense") ∧
      (¬ ∀ ch ∈ e.category.data, isWhiteSpace ch = true) ∧
      (e.amount.isNaN = false ∧ e.amount.gt 0 = true) ∧
      (¬ ∀ ch ∈ e.description.data, isWhiteSpace ch = true) ∧
      e.date ≠ "" := by
  have key := run_invariant
    (fun s =>
      (s.formData.type = "income" ∨ s.formData.type = "expense") ∧
      (s.formData.amount = "" ∨
        isValidFloatingPointNumber s.formData.amount.data = true) ∧
      ∀ e ∈ s.entries,
        (e.type = "income" ∨ e.type = "expense") ∧
        (¬ ∀ ch ∈ e.category.data, isWhiteSpace ch = true) ∧
        (e.amount.isNaN = false ∧ e.amount.gt 0 = true) ∧
        (¬ ∀ ch ∈ e.description.data, isWhiteSpace ch = true) ∧
        e.date ≠ "")
    (fun _ => True) ?_ actions (initialState today) (fun _ _ => trivial) ?_
  · exact key.2.2
  · intro s a _ hs
    obtain ⟨ht, ha, hes⟩ := hs
    obtain ⟨ht', ha'⟩ := form_inputs_step s a ht ha
    refine ⟨ht', ha', ?_⟩
    intro e he
    rcases mem_entries_step s a e he with h | ⟨hv, hty, hc, ham, hd, hdt⟩
    · exact hes e h
    · obtain ⟨v1, v2, v3, v4, v5⟩ := valid_form_fields s.formData hv
      have hvalid : isValidFloatingPointNumber s.formData.amount.data = true := by
        rcases ha with h0 | h0
        · exact absurd h0 v4
        · exact h0
      have hn : (parseFloat s.formData.amount).isNaN = false :=
        parseFloat_isNaN_of_valid _ hvalid
      rw [hty, hc, ham, hd, hdt]
      exact ⟨ht, v1, ⟨hn, gt_zero_of_not_le_zero _ v5 hn⟩, v2, v3⟩
  · refine ⟨Or.inr rfl, Or.inl rfl, ?_⟩
    intro e he
    simp [initialState] at he

/-- A run for `stored_entries_valid`: an income is submitted and deleted again, then an
expense of 12.5 is submitted; the expense that is stored satisfies every constraint. -/
theorem stored_entries_valid_witness :
    (parseFloat "12.5").isNaN = false ∧ (parseFloat "12.5").gt 0 = true :=
  have hmem :
      ({ id := 1704153600000, type := "expense", category := "Food",
         amount := parseFloat "12.5", description := "Lunch",
         date := "2024-01-02" } : Entry)
        ∈ (run
          [Action.changeType TypeOption.income,
           Action.changeCategory "Salary",
           Action.changeAmount "100",
           Action.changeDescription "Pay",
           Action.submit 1704067200000 "2024-01-01",
           Action.delete 1704067200000,
           Action.changeCategory "Food",
           Action.changeAmount "12.5",
           Action.changeDescription "Lunch",
           Action.changeDate "2024-01-02",
           Action.submit 1704153600000 "2024-01-02"] (initialState "2024-01-01")).entries := by
    decide!
  (stored_entries_valid "2024-01-01" _ _ hmem).2.2.1

/-! ## Identifiers -/

theorem clockReadings_cons_submit (now : Int) (today : String) (rest : List Action) :
    clockReadings (Action.submit now today :: rest) = now :: clockReadings rest := rfl

/-- The ids assigned along a run are among the clock readings, in order. -/
theorem assignedIds_sublist_clockReadings (actions : List Action) (s : State) :
    (assignedIds actions s).Sublist (clockReadings actions) := by
  induction actions generalizing s with
  | nil => exact List.Sublist.refl _
  | cons a rest ih =>
    cases a with
    | submit now today =>
      rcases Bool.eq_false_or_eq_true (validateForm s.formData).2 with h | h
      · simp only [assignedIds, h, if_true, clockReadings]
        exact (ih _).cons₂ _
      · simp only [assignedIds, h, clockReadings]
        exact (ih _).cons _
    | changeType choice => exact ih _
    | changeCategory value => exact ih _
    | changeAmount typed => exact ih _
    | changeDate value => exact ih _
    | changeDescription value => exact ih _
    | delete id => exact ih _

/-- The ids in the ledger after a run are among the ids it held before and the ids
assigned along the run, in order. -/
theorem ids_sublist_assignedIds (actions : List Action) (s : State) :
    ((run actions s).entries.map Entry.id).Sublist
      (s.entries.map Entry.id ++ assignedIds actions s) := by
  induction actions generalizing s with
  | nil => simp [run, assignedIds]
  | cons a rest ih =>
    have hrun : run (a :: rest) s = run rest (step s a) := rfl
    rw [hrun]
    cases a with
    | submit now today =>
      rcases Bool.eq_false_or_eq_true (validateForm s.formData).2 with h | h
      · have hs : (step s (Action.submit now today)).entries.map Entry.id
            = s.entries.map Entry.id ++ [now] := by
          simp [step, handleSubmit_of_valid now today s h]
        have := ih (step s (Action.submit now today))
        rw [hs, List.append_assoc] at this
        simpa only [assignedIds, h, if_true, List.singleton_append] using this
      · have hs : (step s (Action.submit now today)).entries = s.entries := by
          simp [step, handleSubmit_of_invalid now today s h]
        have := ih (step s (Action.submit now today))
        rw [hs] at this
        simpa only [assignedIds, h] using this
    | delete id =>
      have hsub : ((step s (Action.delete id)).entries.map Entry.id).Sublist
          (s.entries.map Entry.id) := by
        simp only [step, handleDelete]
        exact (List.filter_sublist _).map _
      exact (ih _).trans (List.Sublist.append hsub (List.Sublist.refl _))
    | changeType choice => exact ih _
    | changeCategory value => exact ih _
    | changeAmount typed => exact ih _
    | changeDate value => exact ih _
    | changeDescription value => exact ih _

/-- Claim C6, as the code has it: the id of a new entry is the clock reading `Date.now()`
of its submission.  Where the clock readings of the submissions are strictly increasing
and above the ids the ledger holds at the start, every id assigned is above, hence
different from, every id in the ledger and every id assigned before it, the ids of the
ledger are pairwise distinct after every event, and the entry a further valid submission
adds has an id that no entry of the ledger has and that was never assigned before. -/
theorem ids_distinct_of_increasing_clock (actions : List Action) (s : State)
    (h : (s.entries.map Entry.id ++ clockReadings actions).Pairwise (fun a b => a < b)) :
    (s.entries.map Entry.id ++ assignedIds actions s).Pairwise (fun a b => a < b) ∧
    ((run actions s).entries.map Entry.id).Sublist
      (s.entries.map Entry.id ++ assignedIds actions s) ∧
    ((run actions s).entries.map Entry.id).Nodup ∧
    ∀ now today, (∀ r ∈ s.entries.map Entry.id ++ clockReadings actions, r < now) →
      (validateForm (run actions s).formData).2 = true →
      ∃ e, (handleSubmit now today (run actions s)).entries
          = (run actions s).entries ++ [e] ∧
        e.id = now ∧
        (∀ e' ∈ (run actions s).entries, e'.id ≠ now) ∧
        (∀ i ∈ s.entries.map Entry.id ++ assignedIds actions s, i ≠ now) ∧
        ((handleSubmit now today (run actions s)).entries.map Entry.id).Nodup := by
  have hsubA : (s.entries.map Entry.id ++ assignedIds actions s).Sublist
      (s.entries.map Entry.id ++ clockReadings actions) :=
    List.Sublist.append (List.Sublist.refl _) (assignedIds_sublist_clockReadings actions s)
  have hA := h.sublist hsubA
  have hB := ids_sublist_assignedIds actions s
  have hC : ((run actions s).entries.map Entry.id).Nodup :=
    (hA.sublist hB).imp (fun hab => ne_of_lt hab)
  refine ⟨hA, hB, hC, ?_⟩
  intro now today hnow hvalid
  have hassigned : ∀ i ∈ s.entries.map Entry.id ++ assignedIds actions s, i ≠ now :=
    fun i hi => ne_of_lt (hnow i (hsubA.subset hi))
  have hledger : ∀ e' ∈ (run actions s).entries, e'.id ≠ now :=
    fun e' he' => hassigned _ (hB.subset (List.mem_map_of_mem _ he'))
  refine ⟨{ id := now, type := (run actions s).formData.type,
            category := (run actions s).formData.category,
            amount := parseFloat (run actions s).formData.amount,
            description := (run actions s).formData.description,
            date := (run actions s).formData.date }, ?_, rfl, hledger, hassigned, ?_⟩
  · rw [handleSubmit_of_valid now today _ hvalid]
  · rw [handleSubmit_of_valid now today _ hvalid]
    simp only [List.map_append, List.map_cons, List.map_nil]
    rw [List.nodup_append]
    refine ⟨hC, List.nodup_singleton _, ?_⟩
    intro i hi hi'
    rw [List.mem_singleton] at hi'
    rw [List.mem_map] at hi
    obtain ⟨e', he', rfl⟩ := hi
    exact hledger e' he' hi'

/-- A run for `ids_distinct_of_increasing_clock`: two submissions a day apart on the empty
ledger leave two entries with distinct ids. -/
theorem ids_distinct_of_increasing_clock_witness :
    ((run
      [Action.changeType TypeOption.income,
       Action.changeCategory "Salary",
       Action.changeAmount "100",
       Action.changeDescription "Pay",
       Action.submit 1704067200000 "2024-01-01",
       Action.changeCategory "Food",
       Action.changeAmount "12.5",
       Action.changeDescription "Lunch",
       Action.submit 1704153600000 "2024-01-02"]
      (initialState "2024-01-01")).entries.map Entry.id).Nodup :=
  (ids_distinct_of_increasing_clock _ (initialState "2024-01-01") (by decide)).2.2.1

/-- Claim C6, as stated, fails: two valid submissions at the same clock reading store two
entries with the same id. -/
theorem handleSubmit_same_instant_same_id :
    ((run
      [Action.changeType TypeOption.income,
       Action.changeCategory "Salary",
       Action.changeAmount "100",
       Action.changeDescription "Pay",
       Action.submit 1704067200000 "2024-01-01",
       Action.changeCategory "Food",
       Action.changeAmount "12.5",
       Action.changeDescription "Lunch",
       Action.submit 1704067200000 "2024-01-01"]
      (initialState "2024-01-01")).entries.map Entry.id)
      = [1704067200000, 1704067200000] := by
  decide!

/-- Claim C7: on a form that passes `validateForm`, `handleSubmit` yields the ledger
followed by exactly one new entry, whose type, category, description and date are those
of the form and whose amount is `parseFloat` of the amount text, and hands that sequence
to `saveData`. -/
theorem handleSubmit_appends (now : Int) (today : String) (s : State)
    (h : (validateForm s.formData).2 = true) :
    (handleSubmit now today s).entries
      = s.entries ++
          [{ id := now, type := s.formData.type, category := s.formData.category,
             amount := parseFloat s.formData.amount,
             description := s.formData.description, date := s.formData.date }] ∧
    (handleSubmit now today s).saved = s.saved ++ [(handleSubmit now today s).entries] := by
  rw [handleSubmit_of_valid now today s h]
  exact ⟨rfl, rfl⟩

/-- A submission for `handleSubmit_appends`: an expense of 12.5 is added to a ledger that
holds one income. -/
theorem handleSubmit_appends_witness :
    (handleSubmit 1704153600000 "2024-01-02"
      { entries := [{ id := 1704067200000, type := "income", category := "Salary",
                      amount := JSNumber.fin 100, description := "Pay",
                      date := "2024-01-01" }]
        formData := { type := "expense", category := "Food", amount := "12.5",
                      description := "Lunch", date := "2024-01-02" }
        errors := []
        saved := [] }).entries
      = [{ id := 1704067200000, type := "income", category := "Salary",
           amount := JSNumber.fin 100, description := "Pay", date := "2024-01-01" }] ++
        [{ id := 1704153600000, type := "expense", category := "Food",
           amount := parseFloat "12.5", description := "Lunch", date := "2024-01-02" }] :=
  (handleSubmit_appends 1704153600000 "2024-01-02"
      { entries := [{ id := 1704067200000, type := "income", category := "Salary",
                      amount := JSNumber.fin 100, description := "Pay",
                      date := "2024-01-01" }]
        formData := { type := "expense", category := "Food", amount := "12.5",
                      description := "Lunch", date := "2024-01-02" }
        errors := []
        saved := [] }
      (by decide!)).1

/-- Claim C8: `handleDelete` yields exactly the entries whose id differs from the given
one, in their original order, and hands that sequence to `saveData`; when no entry has the
id, the ledger is unchanged.  The handler is a total function: it raises no error. -/
theorem handleDelete_removes (id : Int) (s : State) :
    (handleDelete id s).entries = s.entries.filter (fun e => e.id ≠ id) ∧
    (handleDelete id s).entries.Sublist s.entries ∧
    (∀ e, e ∈ (handleDelete id s).entries ↔ e ∈ s.entries ∧ e.id ≠ id) ∧
    ((∀ e ∈ s.entries, e.id ≠ id) → (handleDelete id s).entries = s.entries) ∧
    (handleDelete id s).saved = s.saved ++ [(handleDelete id s).entries] ∧
    (handleDelete id s).formData = s.formData ∧ (handleDelete id s).errors = s.errors := by
  have hf : (handleDelete id s).entries = s.entries.filter (fun e => e.id ≠ id) := by
    simp only [handleDelete]
    congr 1
    funext e
    by_cases he : e.id = id <;> simp [he]
  refine ⟨hf, ?_, ?_, ?_, rfl, rfl, rfl⟩
  · rw [hf]; exact List.filter_sublist _
  · intro e
    rw [hf, List.mem_filter]
    simp
  · intro hne
    rw [hf, List.filter_eq_self]
    intro e he
    simpa using hne e he

/-- A deletion for `handleDelete_removes`: no entry of the ledger has the id 7. -/
theorem handleDelete_removes_witness :
    (handleDelete 7
      { entries := [{ id := 1704067200000, type := "income", category := "Salary",
                      amount := JSNumber.fin 100, description := "Pay",
                      date := "2024-01-01" }]
        formData := emptyForm "2024-01-02"
        errors := []
        saved := [] }).entries
      = [{ id := 1704067200000, type := "income", category := "Salary",
           amount := JSNumber.fin 100, description := "Pay", date := "2024-01-01" }] :=
  (handleDelete_removes 7
      { entries := [{ id := 1704067200000, type := "income", category := "Salary",
                      amount := JSNumber.fin 100, description := "Pay",
                      date := "2024-01-01" }]
        formData := emptyForm "2024-01-02"
        errors := []
        saved := [] }).2.2.2.1 (by decide)

/-- Claim C9: deleting the same id twice in succession leaves the same ledger as deleting
it once, and the sequence handed to `saveData` by the second deletion is the one handed to
it by the first. -/
theorem handleDelete_idempotent (id : Int) (s : State) :
    (handleDelete id (handleDelete id s)).entries = (handleDelete id s).entries ∧
    (handleDelete id (handleDelete id s)).saved.getLast?
      = (handleDelete id s).saved.getLast? ∧
    (handleDelete id (handleDelete id s)).formData = (handleDelete id s).formData ∧
    (handleDelete id (handleDelete id s)).errors = (handleDelete id s).errors := by
  have h : (handleDelete id (handleDelete id s)).entries = (handleDelete id s).entries := by
    simp [handleDelete, List.filter_filter]
  refine ⟨h, ?_, rfl, rfl⟩
  have e1 : (handleDelete id (handleDelete id s)).saved
      = (handleDelete id s).saved ++ [(handleDelete id (handleDelete id s)).entries] := rfl
  have e2 : (handleDelete id s).saved = s.saved ++ [(handleDelete id s).entries] := rfl
  rw [e1, h, List.getLast?_append, e2, List.getLast?_append]
  simp

/-! ## Rejected submissions -/

/-- Claim C11: on a form that fails `validateForm` (the error mapping has at least one
key), `handleSubmit` leaves the entry sequence as it was and hands nothing to `saveData`;
the form is kept and only the errors are shown. -/
theorem handleSubmit_invalid_keeps_ledger (now : Int) (today : String) (s : State)
    (h : (validateForm s.formData).1 ≠ []) :
    (handleSubmit now today s).entries = s.entries ∧
    (handleSubmit now today s).saved = s.saved ∧
    (handleSubmit now today s).formData = s.formData ∧
    (handleSubmit now today s).errors = (validateForm s.formData).1 := by
  have hv : (validateForm s.formData).2 = false := by
    rw [validateForm_snd]
    simpa using h
  rw [handleSubmit_of_invalid now today s hv]
  exact ⟨rfl, rfl, rfl, rfl⟩

/-- A rejected submission for `handleSubmit_invalid_keeps_ledger`: the amount -5 on a
ledger that holds one income. -/
theorem handleSubmit_invalid_keeps_ledger_witness :
    (handleSubmit 1704153600000 "2024-01-02"
      { entries := [{ id := 1704067200000, type := "income", category := "Salary",
                      amount := JSNumber.fin 100, description := "Pay",
                      date := "2024-01-01" }]
        formData := { type := "expense", category := "Food", amount := "-5",
                      description := "Lunch", date := "2024-01-02" }
        errors := []
        saved := [] }).entries
      = [{ id := 1704067200000, type := "income", category := "Salary",
           amount := JSNumber.fin 100, description := "Pay", date := "2024-01-01" }] :=
  (handleSubmit_invalid_keeps_ledger 1704153600000 "2024-01-02"
      { entries := [{ id := 1704067200000, type := "income", category := "Salary",
                      amount := JSNumber.fin 100, description := "Pay",
                      date := "2024-01-01" }]
        formData := { type := "expense", category := "Food", amount := "-5",
                      description := "Lunch", date := "2024-01-02" }
        errors := []
        saved := [] }
      (by decide!)).1

/-! ## Loading -/

/-- Claim C12: `loadData` never fails.  On a ledger that holds the value `useState` gave
it, the empty sequence, the ledger is still that value afterwards when the read is
rejected, when the key holds nothing, and when the stored text does not parse; otherwise
the ledger is the value `JSON.parse` returns.  Of `JSON.parse` only this is used: the
empty text does not parse. -/
theorem loadData_never_fails {α : Type} (storage : String → StorageGet)
    (jsonParse : String → Option α) (hempty : jsonParse "" = none) (entries : α) :
    (storage "budget-entries" = StorageGet.rejected →
      loadData storage jsonParse entries = entries) ∧
    (storage "budget-entries" = StorageGet.absent →
      loadData storage jsonParse entries = entries) ∧
    (∀ value, storage "budget-entries" = StorageGet.found value →
      jsonParse value = none → loadData storage jsonParse entries = entries) ∧
    (∀ value parsed, storage "budget-entries" = StorageGet.found value →
      jsonParse value = some parsed → loadData storage jsonParse entries = parsed) := by
  refine ⟨?_, ?_, ?_, ?_⟩
  · intro h
    simp [loadData, loadDataTry, h]
  · intro h
    simp [loadData, loadDataTry, h]
  · intro value h hp
    simp only [loadData, loadDataTry, h, hp]
    split_ifs <;> rfl
  · intro value parsed h hp
    have hne : truthyString value = true := by
      by_contra hc
      have hv : value = "" := (truthyString_eq_false_iff value).mp (by simpa using hc)
      rw [hv, hempty] at hp
      cases hp
    simp [loadData, loadDataTry, h, hp, hne]


/-- A load for `loadData_never_fails`: the store holds a text that parses, and the ledger
becomes the parsed value. -/
theorem loadData_never_fails_witness :
    loadData (fun _ => StorageGet.found "[1,2]")
      (fun text => if text = "[1,2]" then some [1, 2] else none) ([] : List Nat)
      = [1, 2] :=
  (loadData_never_fails (fun _ => StorageGet.found "[1,2]")
      (fun text => if text = "[1,2]" then some [1, 2] else none) (by decide)
      ([] : List Nat)).2.2.2 "[1,2]" [1, 2] rfl (by decide)

/-! ## The serialization round trip -/

/-- Claim C10: the text `saveData` writes for a sequence of entries is stored under the
key `loadData` reads, and `loadData` on a fresh ledger reconstructs the sequence from it:
the same entries in the same order, equal field for field; the text `exportToJSON`
produces parses back to the same sequence.  Of the built-ins this is used: `JSON.parse`
reads back what `JSON.stringify` wrote for these entries, with and without indentation,
and the empty text does not parse. -/
theorem saveData_loadData_round_trip
    (jsonStringify jsonStringifyPretty : List Entry → String)
    (jsonParse : String → Option (List Entry)) (storage : String → StorageGet)
    (entries : List Entry) (today : String)
    (hempty : jsonParse "" = none)
    (hcompact : jsonParse (jsonStringify entries) = some entries)
    (hpretty : jsonParse (jsonStringifyPretty entries) = some entries) :
    saveData jsonStringify true storage entries "budget-entries"
      = StorageGet.found (jsonStringify entries) ∧
    (∀ key, key ≠ "budget-entries" →
      saveData jsonStringify true storage entries key = storage key) ∧
    loadData (saveData jsonStringify true storage entries) jsonParse
      (initialState today).entries = entries ∧
    jsonParse (exportToJSON jsonStringifyPretty today entries).content = some entries := by
  have hkey : saveData jsonStringify true storage entries "budget-entries"
      = StorageGet.found (jsonStringify entries) := by
    simp [saveData]
  have htext : truthyString (jsonStringify entries) = true := by
    by_contra hc
    have hv : jsonStringify entries = "" :=
      (truthyString_eq_false_iff _).mp (by simpa using hc)
    rw [hv, hempty] at hcompact
    cases hcompact
  refine ⟨hkey, ?_, ?_, hpretty⟩
  · intro key hne
    simp [saveData, hne]
  · simp [loadData, loadDataTry, hkey, htext, hcompact]

/-- A round trip for `saveData_loadData_round_trip`: the store is empty, one entry is
saved and loaded again. -/
theorem saveData_loadData_round_trip_witness :
    loadData
      (saveData (fun _ => "[1]") true (fun _ => StorageGet.absent)
        [{ id := 1704067200000, type := "income", category := "Salary",
           amount := JSNumber.fin 100, description := "Pay", date := "2024-01-01" }])
      (fun text =>
        if text = "[1]" then
          some [{ id := 1704067200000, type := "income", category := "Salary",
                  amount := JSNumber.fin 100, description := "Pay", date := "2024-01-01" }]
        else none)
      (initialState "2024-01-01").entries
      = [{ id := 1704067200000, type := "income", category := "Salary",
           amount := JSNumber.fin 100, description := "Pay", date := "2024-01-01" }] :=
  (saveData_loadData_round_trip (fun _ => "[1]") (fun _ => "[1]")
      (fun text =>
        if text = "[1]" then
          some [{ id := 1704067200000, type := "income", category := "Salary",
                  amount := JSNumber.fin 100, description := "Pay", date := "2024-01-01" }]
        else none)
      (fun _ => StorageGet.absent) _ "2024-01-01" (by decide) (by decide) (by decide)).2.2.1

/-! ## The two aggregations -/

/-- On ordinary categories the two aggregations add the same amounts in different orders,
and the rounded sums can differ: with incomes 1e16 (Salary), 1 (Gift), 1 (Gift) the total
income is 1e16, while the income column of the categories sums to 1e16 + 2. -/
theorem category_sums_differ_by_rounding :
    (calculateTotals
      [{ id := 1, type := "income", category := "Salary", amount := parseFloat "1e16",
         description := "Pay", date := "2024-01-01" },
       { id := 2, type := "income", category := "Gift", amount := parseFloat "1",
         description := "Card", date := "2024-01-02" },
       { id := 3, type := "income", category := "Gift", amount := parseFloat "1",
         description := "Card", date := "2024-01-03" }]).income
      = JSNumber.fin 10000000000000000 ∧
    ((getCategoryTotals
      [{ id := 1, type := "income", category := "Salary", amount := parseFloat "1e16",
         description := "Pay", date := "2024-01-01" },
       { id := 2, type := "income", category := "Gift", amount := parseFloat "1",
         description := "Card", date := "2024-01-02" },
       { id := 3, type := "income", category := "Gift", amount := parseFloat "1",
         description := "Card", date := "2024-01-03" }]).map
      (fun p => p.2.income)).foldl (fun sum a => sum + a) 0
      = JSNumber.fin 10000000000000002 := by
  constructor <;> decide!

/-- Claim C13, at an input where the code departs from it: one expense of 20 in a
category named constructor.  `calculateTotals` reports expenses of 20, while
`getCategoryTotals` has no category at all, so its expense column sums to 0. -/
theorem category_sums_miss_constructor :
    (calculateTotals
      [{ id := 1, type := "expense", category := "constructor",
         amount := JSNumber.fin 20, description := "fee", date := "2024-01-01" }]).expenses
      = JSNumber.fin 20 ∧
    ((getCategoryTotals
      [{ id := 1, type := "expense", category := "constructor",
         amount := JSNumber.fin 20, description := "fee", date := "2024-01-01" }]).map
      (fun p => p.2.expense)).sum = 0 := by
  constructor
  · decide!
  · decide

end BudgetTracker
